import Mathlib

/-!
Verification of the `alfred` streaming transcription pipeline.

Shallow embedding of the Go sources:
  * `pkg/whispercpp/config.go`   — `Config`, `DefaultConfig`
  * `pkg/whispercpp/service.go`  — `TranscriptionResult`, the buffer-accumulator
    loop `processAudio`, `ProcessAudio`, `transcribeAudio`, `BroadcastResult`,
    `Initialize`, `Close`
  * `pkg/tts/service.go`         — `ExtractVerbalResponse`

Go `int` values are modelled as `Int`; audio samples carry no arithmetic in
the pipeline, so the sample type is an arbitrary `α` and a chunk is a
`List α`.  Channels are modelled as explicit queues with a closed flag; the
Go runtime rule that a send on a closed channel panics is modelled by an
explicit `panicked` outcome.
-/

set_option autoImplicit false

universe u

/-- `Config` from `pkg/whispercpp/config.go`.  Go `int` fields become `Int`,
`float32` becomes `Float`. -/
structure Config where
  modelPath : String
  threads : Int
  maxAudioLen : Int
  sampleRate : Int
  language : String
  enableVAD : Bool
  vadThreshold : Float
  wakeWord : String

/-- `DefaultConfig` from `pkg/whispercpp/config.go`. -/
def DefaultConfig : Config :=
  { modelPath := "/Users/zakicole/alfred/models/ggml-base.en.bin"
    threads := 4
    maxAudioLen := 30
    sampleRate := 16000
    language := "en"
    enableVAD := true
    vadThreshold := 0.5
    wakeWord := "alfred" }

/-- `bufferSize := s.config.SampleRate * 3` computed at the top of
`processAudio` (service.go line 167): the flush threshold, 3 seconds of
audio. -/
def bufferSize (cfg : Config) : Int := cfg.sampleRate * 3

/-- `minBufferSize := s.config.SampleRate / 2` computed at the top of
`processAudio` (service.go line 168): the minimum window, 0.5 seconds,
required for a timeout flush.  Go integer division. -/
def minBufferSize (cfg : Config) : Int := cfg.sampleRate / 2

/-- The two wake conditions of the accumulator `select` in `processAudio`
(service.go lines 172-196): either a chunk is received from the audio queue,
or the 500 ms `time.After` timer fires.  (The `ctx.Done` arm terminates the
loop and performs no buffer action.) -/
inductive AudioEvent (α : Type u) where
  | chunk (data : List α)
  | timeout

/-- One iteration of the accumulator loop body in `processAudio`
(service.go lines 172-196).  Input: the current `audioBuffer` and the event
that woke the loop.  Output: the `audioBuffer` after the iteration, and
`some w` when the iteration dispatched `go s.transcribeAudio(w)` (a flush),
`none` when it did not.
  * chunk arrival: `audioBuffer = append(audioBuffer, data...)`; then if
    `len(audioBuffer) >= bufferSize` the whole buffer is handed off and
    `audioBuffer = nil`;
  * timeout: if `len(audioBuffer) >= minBufferSize` the buffer is handed
    off and `audioBuffer = nil`. -/
def processAudioStep {α : Type u} (cfg : Config) (buf : List α) :
    AudioEvent α → List α × Option (List α)
  | .chunk data =>
      let buf2 := buf ++ data
      if (buf2.length : Int) ≥ bufferSize cfg then ([], some buf2)
      else (buf2, none)
  | .timeout =>
      if (buf.length : Int) ≥ minBufferSize cfg then ([], some buf)
      else (buf, none)

/-- The accumulator loop run over a whole event sequence: returns the final
open window and the list of flushed windows in dispatch order. -/
def processAudioTrace {α : Type u} (cfg : Config) (buf : List α) :
    List (AudioEvent α) → List α × List (List α)
  | [] => (buf, [])
  | ev :: evs =>
      let step := processAudioStep cfg buf ev
      let rest := processAudioTrace cfg step.1 evs
      (rest.1, (step.2.toList) ++ rest.2)

/-- Claim C1 — For every open window and arriving chunk, if appending the
chunk makes the window reach the flush threshold `SampleRate * 3`, the loop
iteration dispatches exactly one flush carrying the whole window and leaves
the open window empty; below the threshold no flush is dispatched and the
window keeps accumulating. -/
theorem processAudio_flush_on_threshold {α : Type u} (cfg : Config)
    (buf data : List α) :
    (((buf ++ data).length : Int) ≥ bufferSize cfg →
        processAudioStep cfg buf (.chunk data) = ([], some (buf ++ data))) ∧
    (((buf ++ data).length : Int) < bufferSize cfg →
        processAudioStep cfg buf (.chunk data) = (buf ++ data, none)) := by
  constructor
  · intro h
    have h' : bufferSize cfg ≤ (buf.length : Int) + (data.length : Int) := by
      simpa using h
    simp [processAudioStep, h']
  · intro h
    have h' : (buf.length : Int) + (data.length : Int) < bufferSize cfg := by
      simpa using h
    simp [processAudioStep, not_le.mpr h']

/-- Witness for C1: with `sampleRate = 2` (threshold 6 samples), the chunk
`[4, 5, 6]` appended to the window `[1, 2, 3]` reaches the threshold and the
step flushes the six samples, leaving an empty window; a two-sample window
receiving one sample stays open. -/
theorem processAudio_flush_on_threshold_witness :
    (((([1, 2, 3] : List Int) ++ [4, 5, 6]).length : Int) ≥
        bufferSize { DefaultConfig with sampleRate := 2 } ∧
      processAudioStep { DefaultConfig with sampleRate := 2 }
        ([1, 2, 3] : List Int) (.chunk [4, 5, 6]) =
        ([], some [1, 2, 3, 4, 5, 6])) ∧
    (((([1, 2] : List Int) ++ [3]).length : Int) <
        bufferSize { DefaultConfig with sampleRate := 2 } ∧
      processAudioStep { DefaultConfig with sampleRate := 2 }
        ([1, 2] : List Int) (.chunk [3]) = ([1, 2, 3], none)) := by
  refine ⟨⟨by decide, ?_⟩, ⟨by decide, ?_⟩⟩
  · exact (processAudio_flush_on_threshold
      { DefaultConfig with sampleRate := 2 } [1, 2, 3] [4, 5, 6]).1 (by decide)
  · exact (processAudio_flush_on_threshold
      { DefaultConfig with sampleRate := 2 } [1, 2] [3]).2 (by decide)

/-- Claim C2 — On a timeout wake (no chunk for 500 ms) the loop flushes the
open window iff it holds at least `SampleRate / 2` samples, leaving the
window empty; and because the post-flush window is empty and the minimum is
positive, a further timeout with no intervening chunk dispatches no second
flush. -/
theorem processAudio_timeout_flush {α : Type u} (cfg : Config)
    (buf : List α) (hmin : 0 < minBufferSize cfg) :
    ((minBufferSize cfg ≤ (buf.length : Int) →
        processAudioStep cfg buf .timeout = ([], some buf)) ∧
      ((buf.length : Int) < minBufferSize cfg →
        processAudioStep cfg buf .timeout = (buf, none))) ∧
    processAudioStep cfg ([] : List α) .timeout = ([], none) := by
  refine ⟨⟨?_, ?_⟩, ?_⟩
  · intro h
    simp [processAudioStep, h]
  · intro h
    simp [processAudioStep, not_le.mpr h]
  · simp [processAudioStep, not_le.mpr hmin]

/-- Witness for C2: with the default configuration (`minBufferSize = 8000`),
a timeout flushes a 9000-sample window and empties it, a timeout on a
200-sample window does nothing, and a timeout on the empty post-flush window
dispatches no flush. -/
theorem processAudio_timeout_flush_witness :
    (0 < minBufferSize DefaultConfig ∧
      minBufferSize DefaultConfig ≤ ((List.replicate 9000 (0 : Int)).length : Int) ∧
      processAudioStep DefaultConfig (List.replicate 9000 (0 : Int)) .timeout =
        ([], some (List.replicate 9000 (0 : Int))) ∧
      processAudioStep DefaultConfig ([] : List Int) .timeout = ([], none)) ∧
    (((List.replicate 200 (0 : Int)).length : Int) < minBufferSize DefaultConfig ∧
      processAudioStep DefaultConfig (List.replicate 200 (0 : Int)) .timeout =
        (List.replicate 200 (0 : Int), none)) := by
  have hmin : 0 < minBufferSize DefaultConfig := by decide
  have hlen9 : minBufferSize DefaultConfig ≤
      ((List.replicate 9000 (0 : Int)).length : Int) := by
    rw [List.length_replicate]; norm_num [minBufferSize, DefaultConfig]
  have hlen200 : ((List.replicate 200 (0 : Int)).length : Int) <
      minBufferSize DefaultConfig := by
    rw [List.length_replicate]; norm_num [minBufferSize, DefaultConfig]
  exact ⟨⟨hmin, hlen9,
      (processAudio_timeout_flush DefaultConfig _ hmin).1.1 hlen9,
      (processAudio_timeout_flush DefaultConfig ([] : List Int) hmin).2⟩,
    ⟨hlen200,
      (processAudio_timeout_flush DefaultConfig _ hmin).1.2 hlen200⟩⟩

/-- Go `unicode.IsSpace` on the Latin-1 range (the cases relevant to this
pipeline): tab, newline, vertical tab, form feed, carriage return, space,
next line (U+0085) and no-break space (U+00A0). -/
def isGoSpace (c : Char) : Bool :=
  c = '\t' || c = '\n' || c = Char.ofNat 11 || c = Char.ofNat 12 ||
  c = '\r' || c = ' ' || c = Char.ofNat 133 || c = Char.ofNat 160

/-- Go `strings.TrimSpace` on a character list: drop leading and trailing
whitespace. -/
def goTrimSpaceList (l : List Char) : List Char :=
  ((l.dropWhile isGoSpace).reverse.dropWhile isGoSpace).reverse

/-- Go `strings.TrimSpace`. -/
def goTrimSpace (s : String) : String := ⟨goTrimSpaceList s.data⟩

/-- Go `strings.ToLower` restricted to its ASCII case mapping: `A`-`Z` map
to `a`-`z`, everything else is unchanged. -/
def asciiLowerChar (c : Char) : Char :=
  if 'A' ≤ c ∧ c ≤ 'Z' then Char.ofNat (c.toNat + 32) else c

/-- Go `strings.ToLower` (ASCII case mapping). -/
def goToLower (s : String) : String := ⟨s.data.map asciiLowerChar⟩

/-- Whether `needle` occurs at the start of `hay`. -/
def startsWithList {α : Type u} [DecidableEq α] : List α → List α → Bool
  | _, [] => true
  | [], _ :: _ => false
  | a :: as, b :: bs => a = b && startsWithList as bs

/-- Whether `needle` occurs contiguously anywhere in `hay` — Go
`strings.Contains` on character lists. -/
def containsSubstring {α : Type u} [DecidableEq α]
    (hay needle : List α) : Bool :=
  match hay with
  | [] => needle.isEmpty
  | _ :: t => startsWithList hay needle || containsSubstring t needle

/-- Go `strings.Contains`. -/
def strContains (s sub : String) : Bool := containsSubstring s.data sub.data

/-- `TranscriptionResult` from `pkg/whispercpp/service.go` lines 21-26.
`Confidence` is a `float64` serialized with `omitempty`; `transcribeAudio`
never assigns it, so it keeps the zero value and is omitted from the JSON
frame. -/
structure TranscriptionResult where
  text : String
  isFinal : Bool
  isWakeWord : Bool
  confidence : Float

/-- The wake-word check of `transcribeAudio` (service.go lines 215-219):
lowercase the trimmed text and test it for containment of the three trigger
phrases. -/
def detectWakeWord (text : String) : Bool :=
  let lowerText := goToLower (goTrimSpace text)
  strContains lowerText "initiate alfred protocol" ||
    strContains lowerText "hi alfred" ||
    strContains lowerText "hey alfred"

/-- The configured trigger-phrase set hardcoded in `transcribeAudio`. -/
def wakePhrases : List String :=
  ["initiate alfred protocol", "hi alfred", "hey alfred"]

/-- The `TranscriptionResult` constructed by `transcribeAudio` from the
engine's text (service.go lines 225-229): `IsFinal` is always `true`,
`Confidence` is never assigned (zero value). -/
def transcribeResult (text : String) : TranscriptionResult :=
  { text := text
    isFinal := true
    isWakeWord := detectWakeWord text
    confidence := 0 }

/-- The input "Hey Alfred, what's up" from the spec's wake-word scenario
(the apostrophe is U+0027). -/
def heyAlfredSample : String :=
  "Hey Alfred, what" ++ String.singleton (Char.ofNat 39) ++ "s up"

/-- Claim C3 — The transcription worker lowercases and trims the engine's
text and sets `isWakeWord` to `true` iff the result contains some configured
trigger phrase as a substring; in particular "Hey Alfred, what's up" is
flagged as a wake word and "hello friend" is not. -/
theorem transcribe_wake_word_detection (text : String) :
    ((transcribeResult text).isWakeWord = true ↔
      ∃ p ∈ wakePhrases, strContains (goToLower (goTrimSpace text)) p = true) ∧
    (transcribeResult heyAlfredSample).isWakeWord = true ∧
    (transcribeResult "hello friend").isWakeWord = false := by
  refine ⟨?_, by decide, by decide⟩
  simp [transcribeResult, detectWakeWord, wakePhrases, or_assoc]

/-- Claim C10 — Every result the transcription worker emits is final and
carries no confidence value (the `Confidence` field keeps the zero value, so
`omitempty` drops it from the JSON frame); no partial result is ever
produced. -/
theorem transcribe_result_always_final (text : String) :
    (transcribeResult text).isFinal = true ∧
      (transcribeResult text).confidence = 0 :=
  ⟨rfl, rfl⟩

/-- A registered WebSocket connection as seen by the service: an opaque
handle (`id`), whether its `WriteJSON` fails, the results delivered to it so
far, and whether its channel has been closed. -/
structure Conn where
  id : Nat
  failsWrite : Bool
  received : List TranscriptionResult
  closed : Bool

/-- Outcome of a Go call: a `nil` error, a non-nil error with the
`fmt.Errorf` message, or a runtime panic (e.g. a send on a closed
channel). -/
inductive GoOutcome where
  | ok
  | err (msg : String)
  | panicked (msg : String)
deriving DecidableEq

/-- Capacity of the audio ingestion queue:
`make(chan []float32, 1000)` in `NewWhisperService` (service.go line 75). -/
def audioQueueCapacity : Nat := 1000

/-- Capacity of the results channel:
`make(chan TranscriptionResult, 100)` in `NewWhisperService`
(service.go line 76). -/
def resultsCapacity : Nat := 100

/-- The mutable state of `WhisperService` (service.go lines 29-41) relevant
to the lifecycle and queue claims.  Channels are queues with a closed flag;
`hasModel` is `s.model != nil`; `hasCancel` is `s.cancelFunc != nil`. -/
structure WhisperService (α : Type u) where
  running : Bool
  audioQueue : List (List α)
  audioQueueClosed : Bool
  results : List TranscriptionResult
  resultsClosed : Bool
  hasModel : Bool
  hasCancel : Bool
  connections : List Conn

/-- `ProcessAudio` (service.go lines 150-161): fail fast when not running;
otherwise a non-blocking `select` send on the audio queue — enqueue when
there is room, fall to the `default` arm (`audio queue full`) when the
buffered channel is at capacity.  A send arm on a closed channel panics in
Go, modelled by the `panicked` outcome.  The function is total: no branch
waits, matching the non-blocking contract. -/
def ProcessAudio {α : Type u} (s : WhisperService α) (audioData : List α) :
    WhisperService α × GoOutcome :=
  if s.running = false then (s, .err "service not running")
  else if s.audioQueueClosed then (s, .panicked "send on closed channel")
  else if s.audioQueue.length < audioQueueCapacity then
    ({ s with audioQueue := s.audioQueue ++ [audioData] }, .ok)
  else (s, .err "audio queue full")

/-- `Initialize` (service.go lines 114-133): no-op when already running,
otherwise set `running`, install a cancel function and start the two
background loops. -/
def Initialize {α : Type u} (s : WhisperService α) :
    WhisperService α × GoOutcome :=
  if s.running then (s, .ok)
  else ({ s with running := true, hasCancel := true }, .ok)

/-- `Close` (service.go lines 320-349): cancel the context, clear `running`,
close and drop every registered connection, close both channels, free the
model. -/
def Close {α : Type u} (s : WhisperService α) :
    WhisperService α × GoOutcome :=
  ({ s with running := false
            , connections := []
            , audioQueueClosed := true
            , resultsClosed := true
            , hasModel := false }, .ok)

/-- Claim C4 — `ProcessAudio` never blocks (it is a total function of the
state): when the service is not running it returns the `service not running`
error and leaves the queue untouched; when the queue is at its fixed
capacity it returns the `audio queue full` error and drops the chunk;
otherwise it enqueues the chunk and returns `nil`.  The hypothesis that the
audio queue is open holds in every state the lifecycle reaches before
`Close`. -/
theorem ProcessAudio_contract {α : Type u} (s : WhisperService α)
    (data : List α) (hopen : s.audioQueueClosed = false) :
    (s.running = false → ProcessAudio s data = (s, .err "service not running")) ∧
    (s.running = true → s.audioQueue.length < audioQueueCapacity →
      ProcessAudio s data =
        ({ s with audioQueue := s.audioQueue ++ [data] }, .ok)) ∧
    (s.running = true → s.audioQueue.length = audioQueueCapacity →
      ProcessAudio s data = (s, .err "audio queue full")) := by
  refine ⟨?_, ?_, ?_⟩
  · intro h
    simp [ProcessAudio, h]
  · intro h hroom
    simp [ProcessAudio, h, hopen, hroom]
  · intro h hfull
    simp [ProcessAudio, h, hopen, hfull]

/-- A running service with an empty queue (the state right after
`Initialize`). -/
def runningEmptyService : WhisperService Int :=
  { running := true
    audioQueue := []
    audioQueueClosed := false
    results := []
    resultsClosed := false
    hasModel := true
    hasCancel := true
    connections := [] }

/-- The same service before `Initialize` (not running). -/
def stoppedSampleService : WhisperService Int :=
  { runningEmptyService with running := false, hasCancel := false }

/-- A running service whose ingestion queue is at capacity. -/
def fullQueueService : WhisperService Int :=
  { runningEmptyService with audioQueue := List.replicate audioQueueCapacity [] }

/-- Witness for C4: a submit to the non-running service fails with
`service not running` and changes nothing; a submit to the running empty
service enqueues the chunk; a submit to the full service fails with
`audio queue full` and drops the chunk. -/
theorem ProcessAudio_contract_witness :
    ProcessAudio stoppedSampleService [1] =
      (stoppedSampleService, .err "service not running") ∧
    ProcessAudio runningEmptyService [1] =
      ({ runningEmptyService with audioQueue := [[1]] }, .ok) ∧
    ProcessAudio fullQueueService [1] =
      (fullQueueService, .err "audio queue full") := by
  have hfull : fullQueueService.audioQueue.length = audioQueueCapacity := by
    simp [fullQueueService, runningEmptyService]
  exact ⟨(ProcessAudio_contract stoppedSampleService [1] rfl).1 rfl,
    (ProcessAudio_contract runningEmptyService [1] rfl).2.1 rfl (by decide),
    (ProcessAudio_contract fullQueueService [1] rfl).2.2 rfl hfull⟩

/-- `BroadcastResult` (service.go lines 306-317): iterate the registry; a
connection whose `WriteJSON` fails is closed (`conn.Close()`) and deleted
from the registry in the same round; a connection whose write succeeds
receives the result and stays.  First component: the registry after the
round; second component: the connections closed during the round. -/
def BroadcastResult (conns : List Conn) (r : TranscriptionResult) :
    List Conn × List Conn :=
  (conns.filterMap fun c =>
      if c.failsWrite then none
      else some { c with received := c.received ++ [r] },
   (conns.filter fun c => c.failsWrite).map fun c => { c with closed := true })

/-- The registry after a sequence of broadcast rounds (the broadcaster loop
pulling successive results from the results channel). -/
def broadcastMany (conns : List Conn) (rs : List TranscriptionResult) :
    List Conn :=
  rs.foldl (fun cs r => (BroadcastResult cs r).1) conns

/-- The handles present in a registry. -/
def connIds (conns : List Conn) : List Nat := conns.map (·.id)

/-- The post-round registry is exactly the non-failing connections, each
with the result appended to its delivery log. -/
theorem BroadcastResult_fst_eq (conns : List Conn) (r : TranscriptionResult) :
    (BroadcastResult conns r).1 =
      (conns.filter fun c => !c.failsWrite).map
        (fun c => { c with received := c.received ++ [r] }) := by
  induction conns with
  | nil => rfl
  | cons c t ih =>
    simp only [BroadcastResult] at ih ⊢
    by_cases h : c.failsWrite <;>
      simp [List.filterMap_cons, List.filter_cons, h, ih]

/-- Broadcast rounds never add handles to the registry. -/
theorem connIds_broadcastMany_subset (rs : List TranscriptionResult)
    (conns : List Conn) :
    connIds (broadcastMany conns rs) ⊆ connIds conns := by
  induction rs generalizing conns with
  | nil => simp [broadcastMany]
  | cons r rs ih =>
    intro x hx
    have h1 : connIds (BroadcastResult conns r).1 ⊆ connIds conns := by
      rw [BroadcastResult_fst_eq]
      intro y hy
      simp only [connIds, List.map_map, List.mem_map, Function.comp] at hy
      obtain ⟨c, hc, hid⟩ := hy
      exact List.mem_map.mpr ⟨c, (List.mem_filter.mp hc).1, hid⟩
    exact h1 (ih (BroadcastResult conns r).1 hx)

/-- Claim C5 — In every broadcast round: every connection left in the
registry is a non-failing one, every non-failing connection stays registered
and receives the result, every failing connection is closed during the
round, the registry shrinks exactly to the non-failing connections, and
(when handles are distinct) a connection pruned by a failed delivery is
absent from the registry after every later round, so it receives no later
result. -/
theorem BroadcastResult_prunes_failed (conns : List Conn)
    (r : TranscriptionResult) :
    (∀ c ∈ (BroadcastResult conns r).1, c.failsWrite = false) ∧
    (∀ c ∈ conns, c.failsWrite = false →
        { c with received := c.received ++ [r] } ∈ (BroadcastResult conns r).1) ∧
    (∀ c ∈ conns, c.failsWrite = true →
        { c with closed := true } ∈ (BroadcastResult conns r).2) ∧
    ((BroadcastResult conns r).1.length =
        (conns.filter fun c => !c.failsWrite).length) ∧
    ((connIds conns).Nodup → ∀ c ∈ conns, c.failsWrite = true →
        ∀ rs, c.id ∉ connIds (broadcastMany (BroadcastResult conns r).1 rs)) := by
  refine ⟨?_, ?_, ?_, ?_, ?_⟩
  · intro c hc
    rw [BroadcastResult_fst_eq] at hc
    obtain ⟨a, ha, rfl⟩ := List.mem_map.mp hc
    have := (List.mem_filter.mp ha).2
    simpa using this
  · intro c hc hok
    rw [BroadcastResult_fst_eq]
    exact List.mem_map.mpr ⟨c, List.mem_filter.mpr ⟨hc, by simp [hok]⟩, rfl⟩
  · intro c hc hfail
    exact List.mem_map.mpr ⟨c, List.mem_filter.mpr ⟨hc, hfail⟩, rfl⟩
  · rw [BroadcastResult_fst_eq, List.length_map]
  · intro hnd c hc hfail rs hmem
    have h1 : c.id ∈ connIds (BroadcastResult conns r).1 :=
      connIds_broadcastMany_subset rs _ hmem
    rw [BroadcastResult_fst_eq] at h1
    simp only [connIds, List.map_map, List.mem_map, Function.comp] at h1
    obtain ⟨c', hc', hid⟩ := h1
    obtain ⟨hc'mem, hc'ok⟩ := List.mem_filter.mp hc'
    have : c' = c :=
      List.inj_on_of_nodup_map hnd hc'mem hc hid
    rw [this] at hc'ok
    simp [hfail] at hc'ok

/-- A connection whose writes fail. -/
def connFailing : Conn :=
  { id := 1, failsWrite := true, received := [], closed := false }

/-- A healthy connection. -/
def connHealthy : Conn :=
  { id := 2, failsWrite := false, received := [], closed := false }

/-- A sample result to broadcast. -/
def demoResult : TranscriptionResult := transcribeResult "hello friend"

/-- Witness for C5 — the spec's two-connection scenario: after one round over
a failing and a healthy connection, the registry has shrunk from 2 to 1, the
survivor has received the result, the failing connection was closed in the
round, and its handle is absent even after a further round. -/
theorem BroadcastResult_prunes_failed_witness :
    (BroadcastResult [connFailing, connHealthy] demoResult).1.length = 1 ∧
    { connHealthy with received := connHealthy.received ++ [demoResult] } ∈
      (BroadcastResult [connFailing, connHealthy] demoResult).1 ∧
    { connFailing with closed := true } ∈
      (BroadcastResult [connFailing, connHealthy] demoResult).2 ∧
    connFailing.id ∉ connIds (broadcastMany
      (BroadcastResult [connFailing, connHealthy] demoResult).1 [demoResult]) := by
  have h := BroadcastResult_prunes_failed [connFailing, connHealthy] demoResult
  refine ⟨h.2.2.2.1.trans rfl, ?_, ?_, ?_⟩
  · exact h.2.1 connHealthy (by simp) rfl
  · exact h.2.2.1 connFailing (by simp) rfl
  · exact h.2.2.2.2 (by decide) connFailing (by simp) rfl [demoResult]

/-- Counterexample for C7 — the claim says `Stopped` is terminal, but
`Initialize` (service.go line 118) only checks `s.running`; calling it after
`Close` on this concrete running instance flips `running` back to `true`, so
the two-operation sequence `Close; Initialize` returns the same instance to
the Running state. -/
theorem close_then_initialize_reenters_running :
    (Initialize (Close runningEmptyService).1).1.running = true := rfl

/-- Claim C7 (amended) — After `Close`, the service is not running and the
ingestion operation fails with the `service not running` error, leaving the
state unchanged; but `Stopped` is not terminal: a further `Initialize` call
on the same instance returns `nil` and sets `running` back to `true` (over
closed channels and a freed model). -/
theorem lifecycle_after_close {α : Type u} (s : WhisperService α)
    (data : List α) :
    (Close s).1.running = false ∧
    ProcessAudio (Close s).1 data = ((Close s).1, .err "service not running") ∧
    (Initialize (Close s).1).1.running = true := by
  refine ⟨rfl, ?_, ?_⟩
  · simp [ProcessAudio, Close]
  · simp [Initialize, Close]

/-- Phase of one transcription-worker goroutine with respect to the engine
adapter: not yet inside `transcribeAudio`'s critical section, currently
executing `s.model.Transcribe` (service.go line 209), or finished. -/
inductive WPhase where
  | idle
  | transcribing
  | done
deriving DecidableEq

/-- The engine-adapter lock `s.mu` together with the phase of every
dispatched worker: the interleaving model of concurrently launched
`transcribeAudio` goroutines, each of which runs `s.mu.Lock()` before and
`s.mu.Unlock()` (deferred) after the engine invocation
(service.go lines 200-213). -/
structure EngineLock where
  holder : Option Nat
  phase : Nat → WPhase

/-- Initial state: lock free, no worker has entered the engine. -/
def engineInit : EngineLock :=
  { holder := none, phase := fun _ => .idle }

/-- Interleaving steps: worker `i` can acquire `s.mu` only when it is free,
and releases it when its engine invocation finishes. -/
inductive EngineStep : EngineLock → EngineLock → Prop where
  | acquire (s : EngineLock) (i : Nat) :
      s.holder = none → s.phase i = .idle →
      EngineStep s
        { holder := some i, phase := Function.update s.phase i .transcribing }
  | release (s : EngineLock) (i : Nat) :
      s.holder = some i → s.phase i = .transcribing →
      EngineStep s
        { holder := none, phase := Function.update s.phase i .done }

/-- States reachable by any interleaving of dispatched workers. -/
def EngineReachable : EngineLock → Prop :=
  Relation.ReflTransGen EngineStep engineInit

/-- Lock invariant: any worker inside the engine holds the lock. -/
def engineInv (s : EngineLock) : Prop :=
  ∀ i, s.phase i = .transcribing → s.holder = some i

theorem engineInv_init : engineInv engineInit := by
  intro i h
  simp [engineInit] at h

theorem engineInv_step {s t : EngineLock} (hstep : EngineStep s t)
    (hinv : engineInv s) : engineInv t := by
  cases hstep with
  | acquire i hnone hidle =>
    intro j hj
    have hj' : Function.update s.phase i WPhase.transcribing j =
        WPhase.transcribing := hj
    by_cases hij : j = i
    · subst hij; rfl
    · rw [Function.update_noteq hij] at hj'
      have h := hinv j hj'
      rw [hnone] at h
      exact absurd h (by simp)
  | release i hsome htrans =>
    intro j hj
    have hj' : Function.update s.phase i WPhase.done j =
        WPhase.transcribing := hj
    by_cases hij : j = i
    · subst hij
      rw [Function.update_same] at hj'
      exact absurd hj' (by simp)
    · rw [Function.update_noteq hij] at hj'
      have h := hinv j hj'
      rw [hsome] at h
      injection h with h'
      exact absurd h'.symm hij

theorem engineInv_reachable {s : EngineLock} (h : EngineReachable s) :
    engineInv s := by
  induction h with
  | refl => exact engineInv_init
  | tail _ hstep ih => exact engineInv_step hstep ih

/-- Claim C6 — Engine-adapter invocations are strictly serialized by `s.mu`:
in every reachable interleaving of dispatched transcription workers, any two
workers simultaneously inside `model.Transcribe` are the same worker, i.e.
the engine is invoked by at most one caller at a time. -/
theorem engine_invocations_serialized (s : EngineLock)
    (hreach : EngineReachable s) (i j : Nat)
    (hi : s.phase i = .transcribing) (hj : s.phase j = .transcribing) :
    i = j := by
  have hinv := engineInv_reachable hreach
  have h1 := hinv i hi
  have h2 := hinv j hj
  rw [h1] at h2
  injection h2

/-- The state after worker 0 acquires the adapter lock. -/
def engineAfterAcquire : EngineLock :=
  { holder := some 0, phase := Function.update engineInit.phase 0 .transcribing }

/-- Witness for C6: the state in which worker 0 holds the lock and is inside
the engine is reachable, and the serialization theorem applies to it. -/
theorem engine_invocations_serialized_witness :
    engineAfterAcquire.phase 0 = WPhase.transcribing ∧ (0 : Nat) = 0 := by
  have hreach : EngineReachable engineAfterAcquire :=
    Relation.ReflTransGen.single (EngineStep.acquire engineInit 0 rfl rfl)
  have hphase : engineAfterAcquire.phase 0 = WPhase.transcribing := by
    simp [engineAfterAcquire]
  exact ⟨hphase,
    engine_invocations_serialized engineAfterAcquire hreach 0 0 hphase hphase⟩

/-- Program counter of one in-flight transcription worker
(service.go lines 200-231): before `s.mu.Lock()`; holding the lock at the
`s.model == nil` check; past a successful engine call and about to execute
`s.results <- result`; finished; or crashed by a send on a closed
channel. -/
inductive WorkerPc where
  | wIdle
  | wLocked
  | wReady
  | wDone
  | wCrashed
deriving DecidableEq

/-- Program counter of the `Close` call (service.go lines 320-349): before
`s.mu.Lock()`; holding the lock; after `close(s.results)`; finished (model
freed, lock released). -/
inductive CloserPc where
  | cIdle
  | cLocked
  | cChansClosed
  | cDone
deriving DecidableEq

/-- Who holds `s.mu`. -/
inductive Holder where
  | worker
  | closer
deriving DecidableEq

/-- Joint state of one late transcription worker racing `Close` for `s.mu`:
the lock, the results-channel closed flag, `s.model != nil`, whether the
worker managed to emit, and both program counters. -/
structure CloseRace where
  mu : Option Holder
  resultsClosed : Bool
  hasModel : Bool
  emitted : Bool
  wpc : WorkerPc
  cpc : CloserPc

/-- Initial state: service running, worker dispatched but not yet in the
critical section, `Close` not yet called. -/
def closeRaceInit : CloseRace :=
  { mu := none
    resultsClosed := false
    hasModel := true
    emitted := false
    wpc := .wIdle
    cpc := .cIdle }

/-- Interleaving steps of the worker and `Close`.  Every statement of both
critical sections runs under `s.mu`; the worker emits only after passing the
`s.model == nil` guard (a `nil` model or a failed engine call makes it
return without emitting); a send on a closed results channel would crash
(`wEmitClosed`), per the Go rule that sending on a closed channel panics. -/
inductive CloseRaceStep : CloseRace → CloseRace → Prop where
  | wAcquire (s : CloseRace) : s.wpc = .wIdle → s.mu = none →
      CloseRaceStep s { s with mu := some .worker, wpc := .wLocked }
  | wModelOk (s : CloseRace) : s.wpc = .wLocked → s.mu = some .worker →
      s.hasModel = true →
      CloseRaceStep s { s with wpc := .wReady }
  | wModelNil (s : CloseRace) : s.wpc = .wLocked → s.mu = some .worker →
      s.hasModel = false →
      CloseRaceStep s { s with wpc := .wDone, mu := none }
  | wEngineErr (s : CloseRace) : s.wpc = .wLocked → s.mu = some .worker →
      s.hasModel = true →
      CloseRaceStep s { s with wpc := .wDone, mu := none }
  | wEmit (s : CloseRace) : s.wpc = .wReady → s.mu = some .worker →
      s.resultsClosed = false →
      CloseRaceStep s { s with emitted := true, wpc := .wDone, mu := none }
  | wEmitClosed (s : CloseRace) : s.wpc = .wReady → s.mu = some .worker →
      s.resultsClosed = true →
      CloseRaceStep s { s with wpc := .wCrashed }
  | cAcquire (s : CloseRace) : s.cpc = .cIdle → s.mu = none →
      CloseRaceStep s { s with mu := some .closer, cpc := .cLocked }
  | cCloseChans (s : CloseRace) : s.cpc = .cLocked → s.mu = some .closer →
      CloseRaceStep s { s with resultsClosed := true, cpc := .cChansClosed }
  | cFreeModel (s : CloseRace) : s.cpc = .cChansClosed → s.mu = some .closer →
      CloseRaceStep s { s with hasModel := false, cpc := .cDone, mu := none }

/-- States reachable by any interleaving of the worker and `Close`. -/
def CloseRaceReachable : CloseRace → Prop :=
  Relation.ReflTransGen CloseRaceStep closeRaceInit

/-- Inductive invariant: each party inside its critical section holds the
lock; once the results channel is closed the model is already freed unless
`Close` is still mid-section (holding the lock); a worker about to emit sees
an open results channel; the worker never crashes. -/
def closeRaceInv (s : CloseRace) : Prop :=
  ((s.wpc = .wLocked ∨ s.wpc = .wReady) → s.mu = some .worker) ∧
  ((s.cpc = .cLocked ∨ s.cpc = .cChansClosed) → s.mu = some .closer) ∧
  (s.resultsClosed = true → s.hasModel = false ∨ s.cpc = .cChansClosed) ∧
  (s.wpc = .wReady → s.resultsClosed = false) ∧
  s.wpc ≠ .wCrashed

theorem closeRaceInv_init : closeRaceInv closeRaceInit := by
  refine ⟨?_, ?_, ?_, ?_, ?_⟩ <;> simp [closeRaceInit]

theorem closeRaceInv_step {s t : CloseRace} (hstep : CloseRaceStep s t)
    (hinv : closeRaceInv s) : closeRaceInv t := by
  obtain ⟨hw, hc, hrc, hready, hcrash⟩ := hinv
  cases hstep with
  | wAcquire hpc hmu =>
    refine ⟨?_, ?_, ?_, ?_, ?_⟩ <;> simp_all
  | wModelOk hpc hmu hm =>
    have hres : s.resultsClosed = false := by
      by_contra hres
      rw [Bool.not_eq_false] at hres
      rcases hrc hres with hmodel | hcpc
      · rw [hm] at hmodel; exact Bool.noConfusion hmodel
      · have := hc (Or.inr hcpc)
        rw [hmu] at this
        simp at this
    refine ⟨?_, ?_, ?_, ?_, ?_⟩ <;> simp_all
  | wModelNil hpc hmu hm =>
    refine ⟨?_, ?_, ?_, ?_, ?_⟩ <;> simp_all
  | wEngineErr hpc hmu hm =>
    refine ⟨?_, ?_, ?_, ?_, ?_⟩ <;> simp_all
  | wEmit hpc hmu hres =>
    refine ⟨?_, ?_, ?_, ?_, ?_⟩ <;> simp_all
  | wEmitClosed hpc hmu hres =>
    have := hready hpc
    rw [hres] at this
    exact Bool.noConfusion this
  | cAcquire hpc hmu =>
    refine ⟨?_, ?_, ?_, ?_, ?_⟩ <;> simp_all
  | cCloseChans hpc hmu =>
    have hwpc : s.wpc ≠ .wLocked ∧ s.wpc ≠ .wReady := by
      constructor <;> intro h
      · have := hw (Or.inl h); rw [hmu] at this; simp at this
      · have := hw (Or.inr h); rw [hmu] at this; simp at this
    refine ⟨?_, ?_, ?_, ?_, ?_⟩ <;> simp_all
  | cFreeModel hpc hmu =>
    have hwpc : s.wpc ≠ .wLocked ∧ s.wpc ≠ .wReady := by
      constructor <;> intro h
      · have := hw (Or.inl h); rw [hmu] at this; simp at this
      · have := hw (Or.inr h); rw [hmu] at this; simp at this
    refine ⟨?_, ?_, ?_, ?_, ?_⟩ <;> simp_all

theorem closeRaceInv_reachable {s : CloseRace} (h : CloseRaceReachable s) :
    closeRaceInv s := by
  induction h with
  | refl => exact closeRaceInv_init
  | tail _ hstep ih => exact closeRaceInv_step hstep ih

/-- Claim C8 — A transcription worker still in flight when `Close` runs
never crashes the service: because both `transcribeAudio` and `Close` run
under `s.mu` and `Close` frees the model before releasing the lock, no
interleaving reaches a send on the already-closed results channel; a worker
arriving after `Close` fails the `s.model == nil` guard and returns without
emitting. -/
theorem late_worker_never_crashes (s : CloseRace)
    (hreach : CloseRaceReachable s) : s.wpc ≠ WorkerPc.wCrashed :=
  (closeRaceInv_reachable hreach).2.2.2.2

/-- The state in which `Close` has fully finished and the late worker has
just acquired the lock: the results channel is closed, the model is freed,
nothing has been emitted. -/
def lateWorkerState : CloseRace :=
  { mu := some .worker
    resultsClosed := true
    hasModel := false
    emitted := false
    wpc := .wLocked
    cpc := .cDone }

/-- Witness for C8: the state where the worker enters its critical section
after `Close` completed is reachable, and the no-crash theorem applies to
it. -/
theorem late_worker_never_crashes_witness :
    lateWorkerState.wpc ≠ WorkerPc.wCrashed := by
  have h1 : CloseRaceReachable
      { closeRaceInit with mu := some .closer, cpc := .cLocked } :=
    Relation.ReflTransGen.single (CloseRaceStep.cAcquire closeRaceInit rfl rfl)
  have h2 := h1.tail (CloseRaceStep.cCloseChans _ rfl rfl)
  have h3 := h2.tail (CloseRaceStep.cFreeModel _ rfl rfl)
  have h4 := h3.tail (CloseRaceStep.wAcquire _ rfl rfl)
  exact late_worker_never_crashes lateWorkerState h4

/-- Index of the first occurrence of `needle` in `hay`, scanning from
position `i` — the leftmost-match search of Go's regexp/`strings.Index`. -/
def findSubAux {α : Type u} [DecidableEq α] :
    List α → List α → Nat → Option Nat
  | hay, needle, i =>
    match hay with
    | [] => if needle.isEmpty then some i else none
    | _ :: t =>
        if startsWithList hay needle then some i
        else findSubAux t needle (i + 1)

/-- Index of the first occurrence of `needle` in `hay`. -/
def findSub {α : Type u} [DecidableEq α] (hay needle : List α) : Option Nat :=
  findSubAux hay needle 0

/-- The opening tag of the verbal-extraction regex in
`ExtractVerbalResponse` (tts/service.go line 210). -/
def verbalOpenTag : List Char := "[[VERBAL]]".data

/-- The closing tag of the verbal-extraction regex. -/
def verbalCloseTag : List Char := "[[/VERBAL]]".data

/-- The capture group of `(?s)\[\[VERBAL\]\](.*?)\[\[/VERBAL\]\]` applied by
`FindStringSubmatch`: with leftmost-first matching and a lazy group, the
match starts at the first `[[VERBAL]]` and the group runs to the first
`[[/VERBAL]]` after it; `none` when no such pair exists. -/
def extractVerbalTag (text : List Char) : Option (List Char) :=
  match findSub text verbalOpenTag with
  | none => none
  | some i =>
      let rest := text.drop (i + verbalOpenTag.length)
      match findSub rest verbalCloseTag with
      | none => none
      | some j => some (rest.take j)

/-- `strings.Split(text, "\n\n")[0]` (tts/service.go lines 218-219): the
text before the first blank-line separator, or the whole text. -/
def firstParagraph (text : List Char) : List Char :=
  match findSub text ['\n', '\n'] with
  | none => text
  | some i => text.take i

/-- RE2's `\s` character class: `[\t\n\f\r ]`. -/
def isRe2Space (c : Char) : Bool :=
  c = '\t' || c = '\n' || c = Char.ofNat 12 || c = '\r' || c = ' '

/-- The `[.!?]` class of the sentence-splitting regex. -/
def isSentencePunct (c : Char) : Bool :=
  c = '.' || c = '!' || c = '?'

/-- Length of the longest prefix satisfying `p`. -/
def countWhile {α : Type u} (p : α → Bool) : List α → Nat
  | [] => 0
  | a :: t => if p a then countWhile p t + 1 else 0

/-- Leftmost match of the delimiter regex `[.!?]+\s+`: returns the start
index and length of the match (a maximal punctuation run followed by a
maximal whitespace run), or `none`.  The two classes are disjoint, so a
match exists at a position iff the maximal punctuation run there is followed
by whitespace. -/
def findSentenceDelim : List Char → Option (Nat × Nat)
  | [] => none
  | c :: rest =>
      if isSentencePunct c then
        let punctLen := 1 + countWhile isSentencePunct rest
        let spaceLen := countWhile isRe2Space ((c :: rest).drop punctLen)
        if 0 < spaceLen then some (0, punctLen + spaceLen)
        else
          match findSentenceDelim rest with
          | none => none
          | some (i, l) => some (i + 1, l)
      else
        match findSentenceDelim rest with
        | none => none
        | some (i, l) => some (i + 1, l)

/-- Go `regexp.Split(text, n)` for the sentence delimiter: split on
successive leftmost matches, producing at most `n` parts (the last part
keeps the remainder unsplit); `n = 0` yields no parts. -/
def goSentenceSplit (text : List Char) : Nat → List (List Char)
  | 0 => []
  | 1 => [text]
  | n + 2 =>
      match findSentenceDelim text with
      | none => [text]
      | some (i, l) => text.take i :: goSentenceSplit (text.drop (i + l)) (n + 1)

/-- `ExtractVerbalResponse` (tts/service.go lines 208-238): return the
trimmed `[[VERBAL]]` capture when a tag pair exists; otherwise the trimmed
first paragraph when it is under 1000 characters; otherwise the first
`min 5 (number of parts)` sentence parts of that paragraph joined with
". " and trimmed (the split has limit 6, and always yields at least one
part, so the final `return text` of the Go code is unreachable). -/
def ExtractVerbalResponse (text : String) : String :=
  match extractVerbalTag text.data with
  | some content => ⟨goTrimSpaceList content⟩
  | none =>
      let fp := firstParagraph text.data
      if fp.length < 1000 then ⟨goTrimSpaceList fp⟩
      else
        let sentences := goSentenceSplit fp 6
        if 0 < sentences.length then
          ⟨goTrimSpaceList (List.intercalate (". ".data)
            (sentences.take (min 5 sentences.length)))⟩
        else text

/-- Claim C9 — `ExtractVerbalResponse` is a pure text transform: when the
input contains a `[[VERBAL]]...[[/VERBAL]]` pair the trimmed tag content is
returned; otherwise when the first paragraph (text before the first blank
line) is under 1000 characters it is returned trimmed; otherwise the first
five sentence parts of that paragraph (joined with ". ") are returned
trimmed. -/
theorem extract_verbal_response_spec (t : List Char) :
    (∀ content, extractVerbalTag t = some content →
        ExtractVerbalResponse ⟨t⟩ = ⟨goTrimSpaceList content⟩) ∧
    (extractVerbalTag t = none → (firstParagraph t).length < 1000 →
        ExtractVerbalResponse ⟨t⟩ = ⟨goTrimSpaceList (firstParagraph t)⟩) ∧
    (extractVerbalTag t = none → ¬(firstParagraph t).length < 1000 →
        ExtractVerbalResponse ⟨t⟩ =
          ⟨goTrimSpaceList (List.intercalate (". ".data)
            ((goSentenceSplit (firstParagraph t) 6).take
              (min 5 (goSentenceSplit (firstParagraph t) 6).length)))⟩) := by
  have hsplit : 0 < (goSentenceSplit (firstParagraph t) 6).length := by
    rw [show (6 : Nat) = 4 + 2 from rfl]
    unfold goSentenceSplit
    cases findSentenceDelim (firstParagraph t) <;> simp
  refine ⟨?_, ?_, ?_⟩
  · intro content h
    simp [ExtractVerbalResponse, h]
  · intro h hlen
    simp [ExtractVerbalResponse, h, hlen]
  · intro h hlen
    simp [ExtractVerbalResponse, h, hlen, hsplit]

/-- A response carrying a verbal tag pair. -/
def verbalTagSample : String :=
  "Intro line.\n\n[[VERBAL]] Hello there. [[/VERBAL]] trailing notes"

/-- A 1500-character single paragraph of short sentences. -/
def longParagraphSample : List Char := (List.replicate 300 "abc. ".data).flatten

set_option maxRecDepth 100000 in
/-- Witness for C9, one concrete input per branch: the tagged response
yields the trimmed tag content; a short two-paragraph response yields its
trimmed first paragraph; a 1500-character paragraph yields its first five
sentence parts joined with ". ". -/
theorem extract_verbal_response_spec_witness :
    ExtractVerbalResponse verbalTagSample = "Hello there." ∧
    ExtractVerbalResponse "First part here\n\nSecond part" = "First part here" ∧
    ExtractVerbalResponse ⟨longParagraphSample⟩ = "abc. abc. abc. abc. abc" := by
  refine ⟨?_, ?_, ?_⟩
  · exact ((extract_verbal_response_spec verbalTagSample.data).1
      (" Hello there. ".data) (by decide)).trans (by decide)
  · exact ((extract_verbal_response_spec
      ("First part here\n\nSecond part").data).2.1
        (by decide) (by decide)).trans (by decide)
  · exact ((extract_verbal_response_spec longParagraphSample).2.2
      (by decide) (by decide)).trans (by decide)
